import Mathlib

/-!
Verification development for the disaggregated-inference benchmark repository.

The embedding below translates, over exact rationals, the measurement and
aggregation code of `experiments/scripts/benchmark_common.py` and the proxy
request pipeline of `experiments/scripts/disagg_proxy_server.py`.
Timestamps and latencies are modelled as `ℚ`; `statistics.stdev` is an
(irrational) square root, so the development carries its square (the sample
variance) and encodes every comparison against it by squaring, which is
faithful because `Real.sqrt` is monotone on nonnegatives (a bridging lemma
to the real-valued coefficient of variation is proved below).
-/

/-! ## Streaming response observer (`measure_streaming`) -/

/-- The distinctions `measure_streaming`'s stream loop draws on one SSE line:
`skip` is a blank line or one without the `data: ` marker (the loop
`continue`s); `done` is the literal `data: [DONE]` line (the loop `break`s);
`badJson` is a data line whose payload fails `json.loads` (the
`json.JSONDecodeError` handler `continue`s); `badShape` is a data line whose
payload parses as JSON but lacks the `choices[0]` structure, so that
`data["choices"][0]` raises an exception that is NOT caught by the loop and
propagates to the outer handler; `token text` is a well-formed chunk whose
`choices[0].text` field is `text` (possibly empty, in which case nothing is
recorded). -/
inductive Frame where
  | skip
  | done
  | badJson
  | badShape
  | token (text : String)
deriving DecidableEq

/-- One SSE line together with the `time.perf_counter()` value `chunk_time`
at which the loop would observe it. -/
structure TimedFrame where
  time : ℚ
  frame : Frame
deriving DecidableEq

/-- Python `str(KeyError('choices'))`: the error message produced when a
parsed chunk lacks the `choices` key. -/
def choicesErrMsg : String := "'choices'"

/-- The error message returned when no content-carrying token was observed. -/
def noTokensMsg : String := "No tokens generated"

/-- The successful-result record of `measure_streaming` (the subset of the
returned dict that the development reasons about; the inter-token-latency
fields are omitted). -/
structure StreamOk where
  ttft_ms : ℚ
  e2e_latency_ms : ℚ
  tpot_ms : ℚ
  completion_tokens : ℕ
  throughput_tok_per_sec : ℚ
  request_start : ℚ
deriving DecidableEq

/-- Result of `measure_streaming`: either `{"error": msg}` or the metric
record. -/
inductive StreamResult where
  | error (msg : String)
  | ok (r : StreamOk)
deriving DecidableEq

/-- The `async for line in response.content` loop of `measure_streaming`,
with its three mutable accumulators `first_token_time`, `token_times`,
`tokens` threaded explicitly.  A `badShape` frame raises out of the loop
(modelled as `Except.error`). -/
def streamLoop :
    List TimedFrame → Option ℚ → List ℚ → List String →
      Except String (Option ℚ × List ℚ × List String)
  | [], ft, times, toks => .ok (ft, times, toks)
  | f :: rest, ft, times, toks =>
    match f.frame with
    | .skip => streamLoop rest ft times toks
    | .badJson => streamLoop rest ft times toks
    | .done => .ok (ft, times, toks)
    | .badShape => .error choicesErrMsg
    | .token text =>
      if text = "" then streamLoop rest ft times toks
      else streamLoop rest (some (ft.getD f.time)) (times ++ [f.time]) (toks ++ [text])

/-- Specification form of the stream loop: the ordered list of
(timestamp, text) pairs of the content-carrying tokens the loop records,
stopping at `done` and raising at `badShape`. -/
def collect : List TimedFrame → Except String (List (ℚ × String))
  | [] => .ok []
  | f :: rest =>
    match f.frame with
    | .skip => collect rest
    | .badJson => collect rest
    | .done => .ok []
    | .badShape => .error choicesErrMsg
    | .token text =>
      if text = "" then collect rest
      else
        match collect rest with
        | .error e => .error e
        | .ok ps => .ok ((f.time, text) :: ps)

/-- `measure_streaming` after a 200 response, as a function of the request
issue time, the timed SSE lines, and the `time.perf_counter()` value taken
when the response body has been fully consumed (which is at or after the
last line's arrival). -/
def measure_streaming (request_start : ℚ) (frames : List TimedFrame)
    (end_time : ℚ) : StreamResult :=
  match streamLoop frames none [] [] with
  | .error e => .error e
  | .ok (first_token_time, _token_times, tokens) =>
    match first_token_time with
    | none => .error noTokensMsg
    | some ftt =>
      if tokens.length = 0 then .error noTokensMsg
      else
        let ttft := ftt - request_start
        let e2e := end_time - request_start
        let tpot := (e2e - ttft) / (max (tokens.length - 1) 1 : ℕ)
        .ok
          { ttft_ms := ttft * 1000
            e2e_latency_ms := e2e * 1000
            tpot_ms := tpot * 1000
            completion_tokens := tokens.length
            throughput_tok_per_sec :=
              if 0 < e2e then (tokens.length : ℚ) / e2e else 0
            request_start := request_start }

/-- Projection used to talk about the TPOT of a result. -/
def tpotOf : StreamResult → Option ℚ
  | .error _ => none
  | .ok r => some r.tpot_ms

/-- Projection used to talk about the TTFT of a result. -/
def ttftOf : StreamResult → Option ℚ
  | .error _ => none
  | .ok r => some r.ttft_ms

/-! ## Statistical aggregator (`compute_percentiles`, `analyze_bimodality`) -/

/-- Python `sorted(values)`. -/
def sortQ (l : List ℚ) : List ℚ := l.insertionSort (· ≤ ·)

/-- Python `statistics.mean(values)` (exact over `ℚ`). -/
def listMean (l : List ℚ) : ℚ := l.sum / l.length

/-- The square of Python `statistics.stdev(values)`: the sample variance
with Bessel's correction. -/
def sampleVariance (l : List ℚ) : ℚ :=
  (l.map (fun x => (x - listMean l) ^ 2)).sum / ((l.length : ℚ) - 1)

/-- Python `min(values)` on a nonempty list (the default is never reached by
the guarded call sites). -/
def pyMin : List ℚ → ℚ
  | [] => 0
  | x :: xs => xs.foldl min x

/-- Python `max(values)` on a nonempty list. -/
def pyMax : List ℚ → ℚ
  | [] => 0
  | x :: xs => xs.foldl max x

/-- `statistics.quantiles(values, n=100, method='inclusive')[i-1]` on sorted
data: with `m = len - 1`, `j, delta = divmod(i*m, 100)`, the result is
`(data[j]*(100-delta) + data[j+1]*delta)/100`. -/
def quantileInc (sorted : List ℚ) (i : ℕ) : ℚ :=
  let m := sorted.length - 1
  let j := i * m / 100
  let delta := i * m % 100
  (sorted.getD j 0 * ((100 : ℚ) - delta) + sorted.getD (j + 1) 0 * delta) / 100

/-- The dict returned by `compute_percentiles` (`stdevSq` is the square of
the `stdev` entry: `stdev` itself is its real square root, so it is zero
exactly when `stdevSq` is). -/
structure PercentileSummary where
  p50 : ℚ
  p95 : ℚ
  p99 : ℚ
  mean : ℚ
  stdevSq : ℚ
  min : ℚ
  max : ℚ
  raw : List ℚ
deriving DecidableEq

/-- `compute_percentiles`: the empty set yields the all-zero summary; with at
least two samples the percentiles come from the 100-way inclusive
interpolated quantiles (indices 49/94/98 of the returned list, i.e. `i` =
50/95/99); otherwise `statistics.quantiles` raises `StatisticsError` and the
nearest-rank-by-truncation fallback runs. -/
def compute_percentiles (values : List ℚ) : PercentileSummary :=
  if values.isEmpty then
    { p50 := 0, p95 := 0, p99 := 0, mean := 0, stdevSq := 0, min := 0, max := 0,
      raw := [] }
  else if 2 ≤ values.length then
    let sorted := sortQ values
    { p50 := quantileInc sorted 50
      p95 := quantileInc sorted 95
      p99 := quantileInc sorted 99
      mean := listMean values
      stdevSq := if 1 < values.length then sampleVariance values else 0
      min := pyMin values
      max := pyMax values
      raw := values }
  else
    let sorted := sortQ values
    let n := sorted.length
    { p50 := if 0 < n then sorted.getD (n / 2) 0 else 0
      p95 := if 0 < n then sorted.getD (Nat.min (n * 95 / 100) (n - 1)) 0 else 0
      p99 := if 0 < n then sorted.getD (Nat.min (n * 99 / 100) (n - 1)) 0 else 0
      mean := listMean values
      stdevSq := if 1 < values.length then sampleVariance values else 0
      min := pyMin values
      max := pyMax values
      raw := values }

/-- Python `statistics.median(values)`. -/
def medianQ (values : List ℚ) : ℚ :=
  let s := sortQ values
  let n := s.length
  if n % 2 = 1 then s.getD (n / 2) 0
  else (s.getD (n / 2 - 1) 0 + s.getD (n / 2) 0) / 2

/-- The branch test `cv > threshold_ratio` of `analyze_bimodality`, where
`cv = stdev / mean if mean > 0 else 0`, encoded over `ℚ`: since
`stdev / mean ≥ 0` when `mean > 0`, the comparison with `t` is equivalent to
`t < 0`, or `0 ≤ t` and the squares compare (`Real.sqrt` is monotone); the
bridging lemma `cvGt_iff_real` below proves this encoding equal to the
real-valued comparison. -/
def cvGt (values : List ℚ) (t : ℚ) : Bool :=
  if 0 < listMean values then
    decide (t < 0) ||
      (decide (0 ≤ t) && decide (t ^ 2 * listMean values ^ 2 < sampleVariance values))
  else decide (0 > t)

/-- The dict returned by `analyze_bimodality`; the `{}` placeholder of
`phase_a_stats` in the unimodal returns is `none`.  The `cv`/`threshold`
entries (present in two of the three return dicts, irrational in general)
are not modelled; the branch they feed is `cvGt`. -/
structure BimodalResult where
  bimodal : Bool
  phase_a : List ℚ
  phase_b : List ℚ
  phase_a_stats : Option PercentileSummary
  phase_b_stats : PercentileSummary
  raw_stats : PercentileSummary
deriving DecidableEq

/-- `analyze_bimodality(values, threshold_ratio)`: fewer than 10 samples is
unimodal by definition; otherwise split at the median when the coefficient
of variation exceeds the threshold, but fall through to the unimodal result
when either cluster would be empty. -/
def analyze_bimodality (threshold_ratio : ℚ) (values : List ℚ) : BimodalResult :=
  if values.length < 10 then
    { bimodal := false, phase_a := [], phase_b := values, phase_a_stats := none,
      phase_b_stats := compute_percentiles values,
      raw_stats := compute_percentiles values }
  else if cvGt values threshold_ratio then
    let median_val := medianQ values
    let phase_a := values.filter (fun v => decide (median_val < v))
    let phase_b := values.filter (fun v => decide (v ≤ median_val))
    if 0 < phase_a.length ∧ 0 < phase_b.length then
      { bimodal := true, phase_a := phase_a, phase_b := phase_b,
        phase_a_stats := some (compute_percentiles phase_a),
        phase_b_stats := compute_percentiles phase_b,
        raw_stats := compute_percentiles values }
    else
      { bimodal := false, phase_a := [], phase_b := values, phase_a_stats := none,
        phase_b_stats := compute_percentiles values,
        raw_stats := compute_percentiles values }
  else
    { bimodal := false, phase_a := [], phase_b := values, phase_a_stats := none,
      phase_b_stats := compute_percentiles values,
      raw_stats := compute_percentiles values }

/-! ## Throughput calculation (`run_benchmark`, aggregation tail) -/

/-- One successful request record as aggregated by `run_benchmark` (the
fields the throughput computation reads). -/
structure RawResult where
  request_start : ℚ
  ttft_ms : ℚ
  tpot_ms : ℚ
  e2e_latency_ms : ℚ
deriving DecidableEq

/-- `r["request_start"] + r["e2e_latency_ms"] / 1000`: the end timestamp of
a record. -/
def endOfReq (r : RawResult) : ℚ := r.request_start + r.e2e_latency_ms / 1000

/-- `min(r["request_start"] for r in raw_results)` over the nonempty list
`r :: rest`. -/
def first_start (r : RawResult) (rest : List RawResult) : ℚ :=
  rest.foldl (fun a x => min a x.request_start) r.request_start

/-- `max(r["request_start"] + r["e2e_latency_ms"]/1000 for r in raw_results)`
over the nonempty list `r :: rest`. -/
def last_end (r : RawResult) (rest : List RawResult) : ℚ :=
  rest.foldl (fun a x => max a (endOfReq x)) (endOfReq r)

/-- The throughput computation of `run_benchmark` (one code path shared by
the serial and concurrent modes): successful count over the wall-clock span
from the earliest start to the latest end, and `0` when that span is not
positive. -/
def throughput_rps (r : RawResult) (rest : List RawResult) : ℚ :=
  let total_requests := (r :: rest).length
  let total_wall_time := last_end r rest - first_start r rest
  if 0 < total_wall_time then (total_requests : ℚ) / total_wall_time else 0

/-! ## Disaggregated proxy (`disagg_proxy_server.py`) -/

/-- JSON values, the payloads the proxy manipulates. -/
inductive JVal where
  | null
  | bool (b : Bool)
  | num (q : ℚ)
  | str (s : String)
  | arr (elems : List JVal)
  | obj (fields : List (String × JVal))

/-- A JSON object body, as an insertion-ordered dict with unique keys
(Python `dict`). -/
abbrev JDict := List (String × JVal)

/-- Python `d.get(k)`: the value at the first (hence only) occurrence of
`k`, or `None`. -/
def dictGet (d : JDict) (k : String) : Option JVal :=
  match d with
  | [] => none
  | (k₁, v) :: rest => if k₁ = k then some v else dictGet rest k

/-- Python `d[k] = v`: replace the value in place when the key exists,
append the pair otherwise. -/
def dictSet (d : JDict) (k : String) (v : JVal) : JDict :=
  match d with
  | [] => [(k, v)]
  | (k₁, v₁) :: rest => if k₁ = k then (k, v) :: rest else (k₁, v₁) :: dictSet rest k v

/-- Python truthiness of a JSON value. -/
def truthy : JVal → Bool
  | .null => false
  | .bool b => b
  | .num q => decide (q ≠ 0)
  | .str s => decide (s ≠ "")
  | .arr elems => !elems.isEmpty
  | .obj fields => !fields.isEmpty

/-- Python truthiness of a `d.get(...)` result (`None` is falsy). -/
def truthyOpt : Option JVal → Bool
  | none => false
  | some v => truthy v

/-- One line of a stage-2 SSE body, at the granularity
`_extract_final_result` distinguishes: a `data: <json>` line that parses
and is not the terminator, the `data: [DONE]` terminator, or any other
byte chunk (blank, non-`data:`, or unparseable).  The proxy's streaming
branch relays these chunks verbatim. -/
inductive Chunk where
  | data (v : JVal)
  | doneMark
  | raw (s : String)

/-- Backend stage 1's reply to one posted body: HTTP status, the JSON body
(read only on 200), and the error text (read only on non-200). -/
structure StageResponse where
  status : ℕ
  body : JDict
  text : String

/-- Backend stage 2's reply to one posted body: HTTP status, the streamed
chunks (on 200), and the error text (on non-200). -/
structure Stage2Response where
  status : ℕ
  chunks : List Chunk
  text : String

/-- The body `run_prefill` posts to stage 1: a deep copy of the request with
`max_tokens` forced to 1, `stream` forced to false, and the
`kv_transfer_params: {"do_remote_decode": true}` retain-state directive. -/
def prefill_body (request_data : JDict) : JDict :=
  dictSet (dictSet (dictSet request_data "max_tokens" (.num 1)) "stream" (.bool false))
    "kv_transfer_params" (.obj [("do_remote_decode", .bool true)])

/-- `run_prefill`, with stage 1 modelled as a response function of the
posted body: a non-200 status raises `RuntimeError` (the `Except.error`),
otherwise the parsed response body is returned. -/
def run_prefill (s1 : JDict → StageResponse) (request_data : JDict) :
    Except String JDict :=
  let resp := s1 (prefill_body request_data)
  if resp.status ≠ 200 then
    .error ("Prefill failed: " ++ toString resp.status ++ " - " ++ resp.text)
  else .ok resp.body

/-- The body `stream_decode` posts to stage 2: a deep copy of the request
with `stream` forced to true, plus the hand-off field exactly when the
extracted `kv_transfer_params` value is truthy. -/
def stream_decode_body (request_data : JDict) (kv : Option JVal) : JDict :=
  let d := dictSet request_data "stream" (.bool true)
  if truthyOpt kv then dictSet d "kv_transfer_params" (kv.getD .null) else d

/-- `stream_decode`, with stage 2 modelled as a response function of the
posted body: non-200 raises, otherwise the generator yields exactly the
response's chunks in arrival order. -/
def stream_decode (s2 : JDict → Stage2Response) (request_data : JDict)
    (kv : Option JVal) : Except String (List Chunk) :=
  let resp := s2 (stream_decode_body request_data kv)
  if resp.status ≠ 200 then
    .error ("Decode failed: " ++ toString resp.status ++ " - " ++ resp.text)
  else .ok resp.chunks

/-- `_extract_final_result`: the last parseable non-terminator data line,
or the `No valid response` error object. -/
def extract_final_result (chunks : List Chunk) : JVal :=
  (chunks.foldl
      (fun acc c => match c with | .data v => some v | _ => acc) none).getD
    (.obj [("error", .str "No valid response")])

/-- What `handle_completion` sends back to its caller: a relayed SSE stream,
or a JSON response with a status code. -/
inductive ProxyOutput where
  | streamResp (chunks : List Chunk)
  | jsonResp (status : ℕ) (body : JVal)

/-- `handle_completion`: run the prefill stage, extract the hand-off field,
then stream from the decode stage (relaying chunks in order) or collapse
the chunks for a non-streaming caller; any raised stage failure is caught
by the single `except` handler and becomes one JSON error response with
status 500. -/
def handle_completion (s1 : JDict → StageResponse) (s2 : JDict → Stage2Response)
    (request_data : JDict) : ProxyOutput :=
  match run_prefill s1 request_data with
  | .error e => .jsonResp 500 (.obj [("error", .str e)])
  | .ok prefill_result =>
    let kv := dictGet prefill_result "kv_transfer_params"
    if truthyOpt (dictGet request_data "stream") then
      match stream_decode s2 request_data kv with
      | .error e => .jsonResp 500 (.obj [("error", .str e)])
      | .ok chunks => .streamResp chunks
    else
      match stream_decode s2 request_data kv with
      | .error e => .jsonResp 500 (.obj [("error", .str e)])
      | .ok chunks => .jsonResp 200 (extract_final_result chunks)

/-- `x if x is not None else y`: how `first_token_time` combines with the
first recorded timestamp. -/
def optOr (a b : Option ℚ) : Option ℚ :=
  match a with
  | some x => some x
  | none => b

/-! ## Lemmas: the stream loop and its specification -/

theorem optOr_none (b : Option ℚ) : optOr none b = b := rfl

theorem streamLoop_eq_collect (frames : List TimedFrame) (ft : Option ℚ)
    (times : List ℚ) (toks : List String) :
    streamLoop frames ft times toks =
      (collect frames).map
        (fun ps =>
          (optOr ft ((ps.map Prod.fst).head?), times ++ ps.map Prod.fst,
            toks ++ ps.map Prod.snd)) := by
  induction frames generalizing ft times toks with
  | nil => cases ft <;> simp [streamLoop, collect, Except.map, optOr]
  | cons f rest ih =>
    cases hf : f.frame with
    | skip => simpa [streamLoop, collect, hf] using ih ft times toks
    | badJson => simpa [streamLoop, collect, hf] using ih ft times toks
    | done => cases ft <;> simp [streamLoop, collect, hf, Except.map, optOr]
    | badShape => simp [streamLoop, collect, hf, Except.map]
    | token text =>
      by_cases ht : text = ""
      · simpa [streamLoop, collect, hf, ht] using ih ft times toks
      · simp only [streamLoop, collect, hf, if_neg ht]
        rw [ih]
        cases hc : collect rest with
        | error e => simp [Except.map]
        | ok ps =>
          simp only [Except.map, List.map_cons, List.head?]
          cases ft <;> simp [optOr, Option.getD]

theorem measure_streaming_eq_collect (request_start end_time : ℚ)
    (frames : List TimedFrame) :
    measure_streaming request_start frames end_time =
      match collect frames with
      | .error e => .error e
      | .ok [] => .error noTokensMsg
      | .ok ((t1, _) :: ps) =>
        .ok
          { ttft_ms := (t1 - request_start) * 1000
            e2e_latency_ms := (end_time - request_start) * 1000
            tpot_ms := ((end_time - request_start) - (t1 - request_start)) /
                (max (ps.length + 1 - 1) 1 : ℕ) * 1000
            completion_tokens := ps.length + 1
            throughput_tok_per_sec :=
              if 0 < end_time - request_start then
                ((ps.length + 1 : ℕ) : ℚ) / (end_time - request_start) else 0
            request_start := request_start } := by
  unfold measure_streaming
  rw [streamLoop_eq_collect]
  cases hc : collect frames with
  | error e => simp [Except.map]
  | ok ps =>
    cases ps with
    | nil => simp [Except.map, optOr]
    | cons p rest =>
      obtain ⟨t1, x1⟩ := p
      simp [Except.map, optOr]

theorem collect_drop_inert (g : TimedFrame)
    (hg : g.frame = .skip ∨ g.frame = .badJson) :
    ∀ pre post : List TimedFrame,
      collect (pre ++ g :: post) = collect (pre ++ post) := by
  intro pre
  induction pre with
  | nil =>
    intro post
    rcases hg with h | h <;> simp [collect, h]
  | cons f pre ih =>
    intro post
    cases hf : f.frame with
    | skip => simp [collect, hf, ih]
    | badJson => simp [collect, hf, ih]
    | done => simp [collect, hf]
    | badShape => simp [collect, hf]
    | token text =>
      by_cases ht : text = "" <;> simp [collect, hf, ht, ih]

/-- C1, counterexample to the claim as stated: with issue time 0, token
timestamps 1 and 2, and the stream fully consumed at time 4, the observer
reports TPOT 3000 ms, while the claimed (tn − t1)/(n − 1) is 1000 ms: the
code divides the span from the first token to the END of the stream (not to
the last token) by n − 1. -/
theorem tpot_uses_stream_end_counterexample :
    tpotOf (measure_streaming 0
        [⟨1, .token "a"⟩, ⟨2, .token "b"⟩, ⟨3, .done⟩] 4) = some 3000
      ∧ ((2 : ℚ) - 1) / ((2 : ℚ) - 1) * 1000 = 1000
      ∧ (3000 : ℚ) ≠ 1000 :=
  ⟨by simp [measure_streaming, streamLoop, tpotOf]; norm_num, by norm_num, by norm_num⟩

/-- C1 (amended): for a request with issue time `start` whose observed
content-token timestamps are `t1 :: restT` (n ≥ 2 of them), the observer
reports TTFT = t1 − start, and TPOT = (end − t1)/(n − 1) where `end` is the
time at which the stream was fully consumed (at or after the last token
timestamp) — not the last token timestamp itself (both in milliseconds). -/
theorem ttft_first_token_tpot_stream_end
    (request_start end_time t1 : ℚ) (frames : List TimedFrame)
    (ps : List (ℚ × String)) (restT : List ℚ)
    (hc : collect frames = .ok ps)
    (hmap : ps.map Prod.fst = t1 :: restT)
    (hn : 2 ≤ ps.length) :
    ttftOf (measure_streaming request_start frames end_time)
        = some ((t1 - request_start) * 1000)
      ∧ tpotOf (measure_streaming request_start frames end_time)
        = some ((end_time - t1) / ((ps.length : ℚ) - 1) * 1000) := by
  rw [measure_streaming_eq_collect, hc]
  cases ps with
  | nil => simp at hmap
  | cons p rest =>
    obtain ⟨tp, xp⟩ := p
    simp only [List.map_cons, List.cons.injEq] at hmap
    obtain ⟨ht1, -⟩ := hmap
    subst ht1
    simp only [List.length_cons] at hn ⊢
    have hr : 1 ≤ rest.length := by omega
    have hmax : max (rest.length + 1 - 1) 1 = rest.length := by omega
    refine ⟨by simp [ttftOf], ?_⟩
    simp only [tpotOf, hmax, Option.some.injEq]
    have hrq : (0 : ℚ) < rest.length := by exact_mod_cast hr
    push_cast
    ring

/-- Witness for `ttft_first_token_tpot_stream_end` at issue time 0, tokens
at times 1 and 2, stream consumed at time 4. -/
theorem ttft_first_token_tpot_stream_end_witness :
    collect [⟨1, .token "a"⟩, ⟨2, .token "b"⟩] = .ok [(1, "a"), (2, "b")]
      ∧ ([(1, "a"), (2, "b")] : List (ℚ × String)).map Prod.fst = 1 :: [2]
      ∧ 2 ≤ ([(1, "a"), (2, "b")] : List (ℚ × String)).length
      ∧ (ttftOf (measure_streaming 0 [⟨1, .token "a"⟩, ⟨2, .token "b"⟩] 4)
            = some ((1 - 0) * 1000)
        ∧ tpotOf (measure_streaming 0 [⟨1, .token "a"⟩, ⟨2, .token "b"⟩] 4)
            = some ((4 - 1) /
                ((([(1, "a"), (2, "b")] : List (ℚ × String)).length : ℚ) - 1) * 1000)) :=
  ⟨rfl, rfl, by decide,
    ttft_first_token_tpot_stream_end 0 4 1 [⟨1, .token "a"⟩, ⟨2, .token "b"⟩]
      [(1, "a"), (2, "b")] [2] rfl rfl (by decide)⟩

/-- C8, counterexample to the claim as stated: a data frame that parses as
JSON but lacks the `choices` structure is not skipped — the uncaught
exception fails the whole request with the `'choices'` message (which is not
the `No tokens generated` error), even though a content-carrying token
follows it in the stream. -/
theorem badshape_frame_fails_request_counterexample :
    measure_streaming 0 [⟨1, .badShape⟩, ⟨2, .token "a"⟩] 3
        = .error choicesErrMsg
      ∧ choicesErrMsg ≠ noTokensMsg :=
  ⟨rfl, by decide⟩

/-- C8 (amended): blank lines, non-`data:` lines and frames that fail JSON
decoding are skipped without affecting the request's result; but a frame
that decodes as JSON without the expected `choices` structure aborts the
request with that exception's message.  For a stream whose processing
raises no such exception, the result is the `No tokens generated` error iff
zero content-carrying tokens were observed by the end of the stream. -/
theorem tolerant_parsing_no_tokens_error
    (request_start end_time t : ℚ) (frames pre post : List TimedFrame)
    (ps : List (ℚ × String)) (hc : collect frames = .ok ps) :
    (measure_streaming request_start frames end_time = .error noTokensMsg
        ↔ ps = [])
      ∧ measure_streaming request_start (pre ++ ⟨t, .badJson⟩ :: post) end_time
          = measure_streaming request_start (pre ++ post) end_time
      ∧ measure_streaming request_start (pre ++ ⟨t, .skip⟩ :: post) end_time
          = measure_streaming request_start (pre ++ post) end_time := by
  refine ⟨?_, ?_, ?_⟩
  · rw [measure_streaming_eq_collect, hc]
    cases ps with
    | nil => simp
    | cons p rest =>
      obtain ⟨a, b⟩ := p
      simp
  · rw [measure_streaming_eq_collect, measure_streaming_eq_collect,
      collect_drop_inert ⟨t, .badJson⟩ (Or.inr rfl)]
  · rw [measure_streaming_eq_collect, measure_streaming_eq_collect,
      collect_drop_inert ⟨t, .skip⟩ (Or.inl rfl)]

/-- Witness for `tolerant_parsing_no_tokens_error`: one token at time 1,
stream consumed at time 2; inert frames inserted at the front. -/
theorem tolerant_parsing_no_tokens_error_witness :
    collect [⟨1, .token "a"⟩] = .ok [(1, "a")]
      ∧ ((measure_streaming 0 [⟨1, .token "a"⟩] 2 = .error noTokensMsg
            ↔ ([(1, "a")] : List (ℚ × String)) = [])
        ∧ measure_streaming 0 ([] ++ ⟨3, .badJson⟩ :: [⟨1, .token "a"⟩]) 2
            = measure_streaming 0 ([] ++ [⟨1, .token "a"⟩]) 2
        ∧ measure_streaming 0 ([] ++ ⟨3, .skip⟩ :: [⟨1, .token "a"⟩]) 2
            = measure_streaming 0 ([] ++ [⟨1, .token "a"⟩]) 2) :=
  ⟨rfl, tolerant_parsing_no_tokens_error 0 2 3 [⟨1, .token "a"⟩] []
    [⟨1, .token "a"⟩] [(1, "a")] rfl⟩

/-! ## Lemmas: dict update -/

theorem dictGet_dictSet_same (d : JDict) (k : String) (v : JVal) :
    dictGet (dictSet d k v) k = some v := by
  induction d with
  | nil => simp [dictGet, dictSet]
  | cons p rest ih =>
    obtain ⟨k₁, v₁⟩ := p
    by_cases h : k₁ = k
    · simp [dictGet, dictSet, h]
    · simp [dictGet, dictSet, h, ih]

theorem dictGet_dictSet_ne (d : JDict) (k k' : String) (v : JVal)
    (h : k ≠ k') : dictGet (dictSet d k v) k' = dictGet d k' := by
  induction d with
  | nil => simp [dictGet, dictSet, h]
  | cons p rest ih =>
    obtain ⟨k₁, v₁⟩ := p
    by_cases h₁ : k₁ = k
    · subst h₁
      simp [dictGet, dictSet, h]
    · simp [dictGet, dictSet, h₁, ih]

/-- C7: if backend stage 1 answers with a non-2xx status (the code tests
`status != 200`, and every non-2xx status is in particular not 200), the
proxy's output is the single structured JSON error payload with HTTP status
500, and it is the same whatever stage 2 would answer — the stage-2 request
is never issued.  The function consults stage 1 exactly once, so no retry
occurs. -/
theorem prefill_failure_returns_500
    (s1 : JDict → StageResponse) (request_data : JDict)
    (hstatus : ¬(200 ≤ (s1 (prefill_body request_data)).status
        ∧ (s1 (prefill_body request_data)).status < 300)) :
    (∀ s2 s2' : JDict → Stage2Response,
        handle_completion s1 s2 request_data = handle_completion s1 s2' request_data)
      ∧ ∀ s2 : JDict → Stage2Response,
          handle_completion s1 s2 request_data
            = .jsonResp 500 (.obj [("error",
                .str ("Prefill failed: "
                  ++ toString (s1 (prefill_body request_data)).status
                  ++ " - " ++ (s1 (prefill_body request_data)).text))]) := by
  have hne : (s1 (prefill_body request_data)).status ≠ 200 := by omega
  constructor
  · intro s2 s2'
    simp [handle_completion, run_prefill, hne]
  · intro s2
    simp [handle_completion, run_prefill, hne]

/-- Witness for `prefill_failure_returns_500`: stage 1 answers 500. -/
theorem prefill_failure_returns_500_witness :
    (¬(200 ≤ ((fun _ : JDict => StageResponse.mk 500 [] "boom")
          (prefill_body [])).status
        ∧ ((fun _ : JDict => StageResponse.mk 500 [] "boom")
          (prefill_body [])).status < 300))
      ∧ ((∀ s2 s2' : JDict → Stage2Response,
            handle_completion (fun _ => StageResponse.mk 500 [] "boom") s2 []
              = handle_completion (fun _ => StageResponse.mk 500 [] "boom") s2' [])
        ∧ ∀ s2 : JDict → Stage2Response,
            handle_completion (fun _ => StageResponse.mk 500 [] "boom") s2 []
              = .jsonResp 500 (.obj [("error",
                  .str ("Prefill failed: "
                    ++ toString ((fun _ : JDict => StageResponse.mk 500 [] "boom")
                        (prefill_body [])).status
                    ++ " - " ++ ((fun _ : JDict => StageResponse.mk 500 [] "boom")
                        (prefill_body [])).text))])) :=
  ⟨by decide,
    prefill_failure_returns_500 (fun _ => StageResponse.mk 500 [] "boom") []
      (by decide)⟩

/-- C2, counterexample to the claim as stated: (a) for an inbound request
with `stream: false`, the body forwarded to stage 2 is NOT the original
body — `stream_decode` forces `stream` to true; (b) when the stage-1
response carries the hand-off field with a falsy value (here the empty
object), the forwarded body does NOT receive it — the code tests the
value's truthiness, not the field's presence. -/
theorem proxy_forwarding_counterexample :
    stream_decode_body [("stream", .bool false)] none
        ≠ [("stream", .bool false)]
      ∧ stream_decode_body [("stream", .bool true)] (some (.obj []))
        = [("stream", .bool true)] := by
  constructor
  · intro h
    simp [stream_decode_body, dictSet, truthyOpt, truthy] at h
  · rfl

/-- C2 (amended): for a streaming inbound request (truthy `stream` field)
with both stages answering 200, the proxy forwards to stage 2 the original
body with the `stream` field forced to true — every other field unchanged —
plus the hand-off field (`kv_transfer_params`, with exactly the stage-1
value) iff that value is truthy; and it relays to its caller exactly the
chunks of stage 2's response, unchanged and in arrival order. -/
theorem proxy_forwarding_and_relay
    (s1 : JDict → StageResponse) (s2 : JDict → Stage2Response)
    (request_data : JDict) (kv : Option JVal)
    (hkv : kv = dictGet (s1 (prefill_body request_data)).body "kv_transfer_params")
    (hstream : truthyOpt (dictGet request_data "stream") = true)
    (h1 : (s1 (prefill_body request_data)).status = 200)
    (h2 : (s2 (stream_decode_body request_data kv)).status = 200) :
    handle_completion s1 s2 request_data
        = .streamResp ((s2 (stream_decode_body request_data kv)).chunks)
      ∧ dictGet (stream_decode_body request_data kv) "stream" = some (.bool true)
      ∧ (∀ k, k ≠ "stream" → k ≠ "kv_transfer_params" →
          dictGet (stream_decode_body request_data kv) k = dictGet request_data k)
      ∧ (truthyOpt kv = true →
          dictGet (stream_decode_body request_data kv) "kv_transfer_params" = kv)
      ∧ (truthyOpt kv = false →
          dictGet (stream_decode_body request_data kv) "kv_transfer_params"
            = dictGet request_data "kv_transfer_params") := by
  refine ⟨?_, ?_, ?_, ?_, ?_⟩
  · simp [handle_completion, run_prefill, stream_decode, h1, h2, hstream, ← hkv]
  · unfold stream_decode_body
    by_cases hkt : truthyOpt kv = true
    · simp only [hkt, if_true]
      rw [dictGet_dictSet_ne (dictSet request_data "stream" (JVal.bool true))
        "kv_transfer_params" "stream" (kv.getD JVal.null) (by decide)]
      exact dictGet_dictSet_same request_data "stream" (JVal.bool true)
    · simp only [hkt]
      simp only [Bool.not_eq_true] at hkt
      simp [hkt]
      exact dictGet_dictSet_same request_data "stream" (JVal.bool true)
  · intro k hks hkk
    unfold stream_decode_body
    by_cases hkt : truthyOpt kv = true
    · simp only [hkt, if_true]
      rw [dictGet_dictSet_ne (dictSet request_data "stream" (JVal.bool true))
        "kv_transfer_params" k (kv.getD JVal.null) (Ne.symm hkk)]
      exact dictGet_dictSet_ne request_data "stream" k (JVal.bool true) (Ne.symm hks)
    · simp only [Bool.not_eq_true] at hkt
      simp [hkt]
      exact dictGet_dictSet_ne request_data "stream" k (JVal.bool true) (Ne.symm hks)
  · intro hkt
    unfold stream_decode_body
    simp only [hkt, if_true]
    rw [dictGet_dictSet_same]
    cases kv with
    | none => simp [truthyOpt] at hkt
    | some v => rfl
  · intro hkt
    unfold stream_decode_body
    simp [hkt]
    exact dictGet_dictSet_ne request_data "stream" "kv_transfer_params"
      (JVal.bool true) (by decide)

/-- Witness for `proxy_forwarding_and_relay`: a streaming request, stage 1
answering 200 with a truthy hand-off value, stage 2 answering 200. -/
theorem proxy_forwarding_and_relay_witness :
    (some (JVal.str "kv1")
        = dictGet ((fun _ : JDict => StageResponse.mk 200
              [("kv_transfer_params", JVal.str "kv1")] "")
            (prefill_body [("stream", JVal.bool true)])).body "kv_transfer_params")
      ∧ truthyOpt (dictGet [("stream", JVal.bool true)] "stream") = true
      ∧ ((fun _ : JDict => StageResponse.mk 200
            [("kv_transfer_params", JVal.str "kv1")] "")
          (prefill_body [("stream", JVal.bool true)])).status = 200
      ∧ ((fun _ : JDict => Stage2Response.mk 200 [Chunk.doneMark] "")
          (stream_decode_body [("stream", JVal.bool true)]
            (some (JVal.str "kv1")))).status = 200
      ∧ (handle_completion
            (fun _ => StageResponse.mk 200 [("kv_transfer_params", JVal.str "kv1")] "")
            (fun _ => Stage2Response.mk 200 [Chunk.doneMark] "")
            [("stream", JVal.bool true)]
          = .streamResp (((fun _ : JDict => Stage2Response.mk 200 [Chunk.doneMark] "")
              (stream_decode_body [("stream", JVal.bool true)]
                (some (JVal.str "kv1")))).chunks)
        ∧ dictGet (stream_decode_body [("stream", JVal.bool true)]
              (some (JVal.str "kv1"))) "stream" = some (.bool true)
        ∧ (∀ k, k ≠ "stream" → k ≠ "kv_transfer_params" →
            dictGet (stream_decode_body [("stream", JVal.bool true)]
                (some (JVal.str "kv1"))) k
              = dictGet [("stream", JVal.bool true)] k)
        ∧ (truthyOpt (some (JVal.str "kv1")) = true →
            dictGet (stream_decode_body [("stream", JVal.bool true)]
                (some (JVal.str "kv1"))) "kv_transfer_params"
              = some (JVal.str "kv1"))
        ∧ (truthyOpt (some (JVal.str "kv1")) = false →
            dictGet (stream_decode_body [("stream", JVal.bool true)]
                (some (JVal.str "kv1"))) "kv_transfer_params"
              = dictGet [("stream", JVal.bool true)] "kv_transfer_params")) :=
  ⟨rfl, rfl, rfl, rfl,
    proxy_forwarding_and_relay
      (fun _ => StageResponse.mk 200 [("kv_transfer_params", JVal.str "kv1")] "")
      (fun _ => Stage2Response.mk 200 [Chunk.doneMark] "")
      [("stream", JVal.bool true)] (some (JVal.str "kv1")) rfl rfl rfl rfl⟩

/-! ## Lemmas: running minima and maxima -/

theorem foldl_min_spec (f : RawResult → ℚ) (l : List RawResult) :
    ∀ init : ℚ,
      (l.foldl (fun a x => min a (f x)) init ≤ init
        ∧ ∀ x ∈ l, l.foldl (fun a x => min a (f x)) init ≤ f x)
      ∧ (l.foldl (fun a x => min a (f x)) init = init
        ∨ ∃ x ∈ l, l.foldl (fun a x => min a (f x)) init = f x) := by
  induction l with
  | nil => intro init; simp
  | cons y ys ih =>
    intro init
    obtain ⟨⟨hle, hall⟩, hmem⟩ := ih (min init (f y))
    refine ⟨⟨le_trans hle (min_le_left _ _), ?_⟩, ?_⟩
    · intro x hx
      rcases List.mem_cons.mp hx with h | h
      · subst h
        exact le_trans hle (min_le_right _ _)
      · exact hall x h
    · rcases hmem with h | ⟨x, hx, h⟩
      · rcases min_choice init (f y) with hc | hc
        · exact Or.inl (by rw [List.foldl_cons, h, hc])
        · exact Or.inr ⟨y, List.mem_cons_self _ _, by rw [List.foldl_cons, h, hc]⟩
      · exact Or.inr ⟨x, List.mem_cons_of_mem _ hx, h⟩

theorem foldl_max_spec (f : RawResult → ℚ) (l : List RawResult) :
    ∀ init : ℚ,
      (init ≤ l.foldl (fun a x => max a (f x)) init
        ∧ ∀ x ∈ l, f x ≤ l.foldl (fun a x => max a (f x)) init)
      ∧ (l.foldl (fun a x => max a (f x)) init = init
        ∨ ∃ x ∈ l, l.foldl (fun a x => max a (f x)) init = f x) := by
  induction l with
  | nil => intro init; simp
  | cons y ys ih =>
    intro init
    obtain ⟨⟨hle, hall⟩, hmem⟩ := ih (max init (f y))
    refine ⟨⟨le_trans (le_max_left _ _) hle, ?_⟩, ?_⟩
    · intro x hx
      rcases List.mem_cons.mp hx with h | h
      · subst h
        exact le_trans (le_max_right _ _) hle
      · exact hall x h
    · rcases hmem with h | ⟨x, hx, h⟩
      · rcases max_choice init (f y) with hc | hc
        · exact Or.inl (by rw [List.foldl_cons, h, hc])
        · exact Or.inr ⟨y, List.mem_cons_self _ _, by rw [List.foldl_cons, h, hc]⟩
      · exact Or.inr ⟨x, List.mem_cons_of_mem _ hx, h⟩

/-- C3: over any nonempty list of successful request records, the computed
`first_start` is the least start timestamp and `last_end` the greatest end
timestamp (both attained by a record), the throughput is the successful
count divided by their difference — the single code path shared by serial
and concurrent runs — and a nonpositive span yields throughput 0.  The
closing concrete conjuncts check the spec's serial/concurrent example: two
back-to-back 100 ms requests give 10 req/s while two fully concurrent ones
give 20 req/s, which differs from the 10 req/s a sum-of-durations
denominator would give. -/
theorem throughput_wall_clock_span (r : RawResult) (rest : List RawResult) :
    (∀ x ∈ r :: rest,
        first_start r rest ≤ x.request_start ∧ endOfReq x ≤ last_end r rest)
      ∧ first_start r rest ∈ (r :: rest).map (fun x => x.request_start)
      ∧ last_end r rest ∈ (r :: rest).map endOfReq
      ∧ throughput_rps r rest
          = (if 0 < last_end r rest - first_start r rest then
              (((r :: rest).length : ℕ) : ℚ) / (last_end r rest - first_start r rest)
            else 0)
      ∧ (last_end r rest - first_start r rest ≤ 0 → throughput_rps r rest = 0)
      ∧ throughput_rps ⟨0, 0, 0, 100⟩ [⟨1/10, 0, 0, 100⟩] = 10
      ∧ throughput_rps ⟨0, 0, 0, 100⟩ [⟨0, 0, 0, 100⟩] = 20
      ∧ (20 : ℚ) ≠ 2 / (100 / 1000 + 100 / 1000) := by
  obtain ⟨⟨hminle, hminall⟩, hminmem⟩ :=
    foldl_min_spec (fun x => x.request_start) rest r.request_start
  obtain ⟨⟨hmaxle, hmaxall⟩, hmaxmem⟩ := foldl_max_spec endOfReq rest (endOfReq r)
  refine ⟨?_, ?_, ?_, rfl, ?_, ?_, ?_, by norm_num⟩
  · intro x hx
    rcases List.mem_cons.mp hx with h | h
    · subst h
      exact ⟨hminle, hmaxle⟩
    · exact ⟨hminall x h, hmaxall x h⟩
  · rcases hminmem with h | ⟨x, hx, h⟩
    · exact List.mem_map.mpr ⟨r, List.mem_cons_self _ _, h.symm⟩
    · exact List.mem_map.mpr ⟨x, List.mem_cons_of_mem _ hx, h.symm⟩
  · rcases hmaxmem with h | ⟨x, hx, h⟩
    · exact List.mem_map.mpr ⟨r, List.mem_cons_self _ _, h.symm⟩
    · exact List.mem_map.mpr ⟨x, List.mem_cons_of_mem _ hx, h.symm⟩
  · intro hspan
    unfold throughput_rps
    rw [if_neg (by exact not_lt.mpr hspan)]
  · norm_num [throughput_rps, first_start, last_end, endOfReq]
  · norm_num [throughput_rps, first_start, last_end, endOfReq]

/-- Witness for `throughput_wall_clock_span`: a single record starting at 0
with a 100 ms duration. -/
theorem throughput_wall_clock_span_witness :
    (∀ x ∈ [(⟨0, 0, 0, 100⟩ : RawResult)],
        first_start ⟨0, 0, 0, 100⟩ [] ≤ x.request_start
          ∧ endOfReq x ≤ last_end ⟨0, 0, 0, 100⟩ [])
      ∧ first_start ⟨0, 0, 0, 100⟩ []
          ∈ [(⟨0, 0, 0, 100⟩ : RawResult)].map (fun x => x.request_start)
      ∧ last_end ⟨0, 0, 0, 100⟩ [] ∈ [(⟨0, 0, 0, 100⟩ : RawResult)].map endOfReq
      ∧ throughput_rps ⟨0, 0, 0, 100⟩ []
          = (if 0 < last_end ⟨0, 0, 0, 100⟩ [] - first_start ⟨0, 0, 0, 100⟩ [] then
              ((([(⟨0, 0, 0, 100⟩ : RawResult)]).length : ℕ) : ℚ)
                / (last_end ⟨0, 0, 0, 100⟩ [] - first_start ⟨0, 0, 0, 100⟩ [])
            else 0)
      ∧ (last_end ⟨0, 0, 0, 100⟩ [] - first_start ⟨0, 0, 0, 100⟩ [] ≤ 0 →
          throughput_rps ⟨0, 0, 0, 100⟩ [] = 0)
      ∧ throughput_rps ⟨0, 0, 0, 100⟩ [⟨1/10, 0, 0, 100⟩] = 10
      ∧ throughput_rps ⟨0, 0, 0, 100⟩ [⟨0, 0, 0, 100⟩] = 20
      ∧ (20 : ℚ) ≠ 2 / (100 / 1000 + 100 / 1000) :=
  throughput_wall_clock_span ⟨0, 0, 0, 100⟩ []

/-! ## Lemmas: constant sample sets -/

theorem getD_all_eq (l : List ℚ) (v : ℚ) (i : ℕ)
    (h : ∀ x ∈ l, x = v) (hi : i < l.length) : l.getD i 0 = v := by
  rw [List.getD_eq_getElem l 0 hi]
  exact h _ (List.getElem_mem hi)

theorem listMean_const (l : List ℚ) (v : ℚ) (hne : l ≠ [])
    (h : ∀ x ∈ l, x = v) : listMean l = v := by
  have hrep : l = List.replicate l.length v := List.eq_replicate_iff.mpr ⟨rfl, h⟩
  have hsum : l.sum = (l.length : ℚ) * v := by
    conv_lhs => rw [hrep]
    rw [List.sum_replicate, nsmul_eq_mul]
  have hlen : (l.length : ℚ) ≠ 0 := by
    exact_mod_cast Nat.pos_iff_ne_zero.mp (List.length_pos.mpr hne)
  rw [listMean, hsum, mul_div_cancel_left₀ _ hlen]

theorem sampleVariance_const (l : List ℚ) (v : ℚ) (hne : l ≠ [])
    (h : ∀ x ∈ l, x = v) : sampleVariance l = 0 := by
  unfold sampleVariance
  have hz : (l.map (fun x => (x - listMean l) ^ 2)).sum = 0 := by
    apply List.sum_eq_zero
    intro x hx
    obtain ⟨y, hy, rfl⟩ := List.mem_map.mp hx
    rw [h y hy, listMean_const l v hne h]
    ring
  rw [hz, zero_div]

theorem quantileInc_const (l : List ℚ) (v : ℚ) (i : ℕ)
    (h : ∀ x ∈ l, x = v) (h2 : 2 ≤ l.length) (hi : i ≤ 99) :
    quantileInc l i = v := by
  have hm1 : 1 ≤ l.length - 1 := by omega
  have hmul : i * (l.length - 1) ≤ 99 * (l.length - 1) :=
    Nat.mul_le_mul_right _ hi
  have hj : i * (l.length - 1) / 100 < l.length - 1 := by
    apply Nat.div_lt_of_lt_mul
    omega
  have hjlt : i * (l.length - 1) / 100 < l.length := by omega
  have hj1lt : i * (l.length - 1) / 100 + 1 < l.length := by omega
  simp only [quantileInc]
  rw [getD_all_eq l v _ h hjlt, getD_all_eq l v _ h hj1lt]
  ring

theorem sortQ_all_eq (l : List ℚ) (v : ℚ) (h : ∀ x ∈ l, x = v) :
    ∀ x ∈ sortQ l, x = v :=
  fun x hx => h x ((List.mem_insertionSort _).mp hx)

theorem sortQ_length (l : List ℚ) : (sortQ l).length = l.length :=
  List.length_insertionSort _ _

/-- C4: a sample set of size at least 2 whose values all equal `v` is
summarized with p50 = p95 = p99 = mean = v, and a standard deviation of 0
(its square `stdevSq` is 0). -/
theorem percentiles_of_constant_samples (values : List ℚ) (v : ℚ)
    (h2 : 2 ≤ values.length) (hall : ∀ x ∈ values, x = v) :
    (compute_percentiles values).p50 = v
      ∧ (compute_percentiles values).p95 = v
      ∧ (compute_percentiles values).p99 = v
      ∧ (compute_percentiles values).mean = v
      ∧ (compute_percentiles values).stdevSq = 0 := by
  have hne : values ≠ [] := by
    intro h
    subst h
    simp at h2
  have hemp : values.isEmpty = false := by
    cases values with
    | nil => simp at h2
    | cons a l => rfl
  have hs2 : 2 ≤ (sortQ values).length := by rw [sortQ_length]; exact h2
  have hsall := sortQ_all_eq values v hall
  unfold compute_percentiles
  rw [hemp]
  simp only [Bool.false_eq_true, if_false, if_pos h2]
  refine ⟨?_, ?_, ?_, ?_, ?_⟩
  · exact quantileInc_const _ v 50 hsall hs2 (by norm_num)
  · exact quantileInc_const _ v 95 hsall hs2 (by norm_num)
  · exact quantileInc_const _ v 99 hsall hs2 (by norm_num)
  · exact listMean_const values v hne hall
  · rw [if_pos (by omega)]
    exact sampleVariance_const values v hne hall

/-- Witness for `percentiles_of_constant_samples`: the constant pair
`[3, 3]`. -/
theorem percentiles_of_constant_samples_witness :
    2 ≤ ([3, 3] : List ℚ).length
      ∧ (∀ x ∈ ([3, 3] : List ℚ), x = 3)
      ∧ ((compute_percentiles [3, 3]).p50 = 3
        ∧ (compute_percentiles [3, 3]).p95 = 3
        ∧ (compute_percentiles [3, 3]).p99 = 3
        ∧ (compute_percentiles [3, 3]).mean = 3
        ∧ (compute_percentiles [3, 3]).stdevSq = 0) :=
  ⟨by norm_num, by norm_num,
    percentiles_of_constant_samples [3, 3] 3 (by norm_num) (by norm_num)⟩

/-- C9: a singleton sample set `[v]` makes `statistics.quantiles` raise, so
the nearest-rank fallback runs and every entry of the summary is `v` (and
the standard deviation is 0, its square being 0). -/
theorem percentiles_singleton (v : ℚ) :
    compute_percentiles [v]
      = { p50 := v, p95 := v, p99 := v, mean := v, stdevSq := 0,
          min := v, max := v, raw := [v] } := by
  simp [compute_percentiles, sortQ, List.insertionSort, List.orderedInsert,
    listMean, pyMin, pyMax]

/-- C6: any sample set with fewer than 10 values is reported unimodal
(`bimodal = false`), with an empty slow cluster (`phase_a`) and the entire
set as the fast cluster (`phase_b`). -/
theorem small_sample_unimodal (threshold_ratio : ℚ) (values : List ℚ)
    (h : values.length < 10) :
    analyze_bimodality threshold_ratio values
      = { bimodal := false, phase_a := [], phase_b := values,
          phase_a_stats := none,
          phase_b_stats := compute_percentiles values,
          raw_stats := compute_percentiles values } := by
  unfold analyze_bimodality
  rw [if_pos h]

/-- Witness for `small_sample_unimodal`: three samples, default 0.3
threshold. -/
theorem small_sample_unimodal_witness :
    ([1, 2, 3] : List ℚ).length < 10
      ∧ analyze_bimodality (3/10) [1, 2, 3]
        = { bimodal := false, phase_a := [], phase_b := [1, 2, 3],
            phase_a_stats := none,
            phase_b_stats := compute_percentiles [1, 2, 3],
            raw_stats := compute_percentiles [1, 2, 3] } :=
  ⟨by norm_num, small_sample_unimodal (3/10) [1, 2, 3] (by norm_num)⟩

/-! ## Lemmas: the coefficient-of-variation branch over the reals -/

theorem sampleVariance_nonneg (l : List ℚ) : 0 ≤ sampleVariance l := by
  cases l with
  | nil => simp [sampleVariance, listMean]
  | cons a s =>
    unfold sampleVariance
    apply div_nonneg
    · apply List.sum_nonneg
      intro x hx
      obtain ⟨y, hy, rfl⟩ := List.mem_map.mp hx
      positivity
    · rw [sub_nonneg]
      exact_mod_cast Nat.succ_le_of_lt (List.length_pos.mpr (by simp))

/-- The `cv > threshold_ratio` test of the code, encoded over `ℚ` by
`cvGt`, is exactly the real-valued comparison of the coefficient of
variation `stdev / mean if mean > 0 else 0` with the threshold. -/
theorem cvGt_iff_real (values : List ℚ) (t : ℚ) :
    cvGt values t = true ↔
      ((t : ℝ) <
        if 0 < listMean values then
          Real.sqrt ((sampleVariance values : ℚ) : ℝ)
            / ((listMean values : ℚ) : ℝ)
        else 0) := by
  unfold cvGt
  by_cases hm : 0 < listMean values
  · rw [if_pos hm, if_pos hm]
    simp only [Bool.or_eq_true, Bool.and_eq_true, decide_eq_true_eq]
    have hmR : (0 : ℝ) < ((listMean values : ℚ) : ℝ) := by exact_mod_cast hm
    have hvR : (0 : ℝ) ≤ ((sampleVariance values : ℚ) : ℝ) := by
      exact_mod_cast sampleVariance_nonneg values
    constructor
    · rintro (ht | ⟨ht0, hlt⟩)
      · have htR : ((t : ℚ) : ℝ) < 0 := by exact_mod_cast ht
        exact lt_of_lt_of_le htR (div_nonneg (Real.sqrt_nonneg _) hmR.le)
      · rw [lt_div_iff₀ hmR]
        have ht0R : (0 : ℝ) ≤ ((t : ℚ) : ℝ) * ((listMean values : ℚ) : ℝ) :=
          mul_nonneg (by exact_mod_cast ht0) hmR.le
        rw [Real.lt_sqrt ht0R]
        have : ((t ^ 2 * listMean values ^ 2 : ℚ) : ℝ)
            < ((sampleVariance values : ℚ) : ℝ) := by exact_mod_cast hlt
        calc (((t : ℚ) : ℝ) * ((listMean values : ℚ) : ℝ)) ^ 2
            = ((t ^ 2 * listMean values ^ 2 : ℚ) : ℝ) := by push_cast; ring
          _ < _ := this
    · intro h
      by_cases ht : t < 0
      · exact Or.inl ht
      · refine Or.inr ⟨le_of_not_lt ht, ?_⟩
        have ht0R : (0 : ℝ) ≤ ((t : ℚ) : ℝ) * ((listMean values : ℚ) : ℝ) :=
          mul_nonneg (by exact_mod_cast le_of_not_lt ht) hmR.le
        rw [lt_div_iff₀ hmR, Real.lt_sqrt ht0R] at h
        have : ((t ^ 2 * listMean values ^ 2 : ℚ) : ℝ)
            < ((sampleVariance values : ℚ) : ℝ) := by
          calc ((t ^ 2 * listMean values ^ 2 : ℚ) : ℝ)
              = (((t : ℚ) : ℝ) * ((listMean values : ℚ) : ℝ)) ^ 2 := by
                push_cast; ring
            _ < _ := h
        exact_mod_cast this
  · rw [if_neg hm, if_neg hm]
    simp only [gt_iff_lt, decide_eq_true_eq]
    exact ⟨fun h => by exact_mod_cast h, fun h => by exact_mod_cast h⟩

theorem exists_le_median (values : List ℚ) (hne : values ≠ []) :
    ∃ x ∈ values, x ≤ medianQ values := by
  have hsorted : List.Sorted (· ≤ ·) (sortQ values) :=
    List.sorted_insertionSort _ _
  have hpos : 0 < (sortQ values).length := by
    rw [sortQ_length]
    exact List.length_pos.mpr hne
  refine ⟨(sortQ values).get ⟨0, hpos⟩,
    (List.mem_insertionSort _).mp (List.get_mem _ 0 hpos), ?_⟩
  have hle : ∀ (i : ℕ) (hi : i < (sortQ values).length),
      (sortQ values).get ⟨0, hpos⟩ ≤ (sortQ values).getD i 0 := by
    intro i hi
    rw [List.getD_eq_getElem _ _ hi]
    exact hsorted.rel_get_of_le (by exact_mod_cast Nat.zero_le i)
  unfold medianQ
  by_cases hpar : (sortQ values).length % 2 = 1
  · simp only [hpar, if_true, if_pos]
    exact hle _ (Nat.div_lt_self hpos (by norm_num))
  · rw [if_neg hpar]
    have h1 := hle ((sortQ values).length / 2 - 1) (by omega)
    have h2 := hle ((sortQ values).length / 2)
      (Nat.div_lt_self hpos (by norm_num))
    linarith

theorem filter_le_median_ne_nil (values : List ℚ) (hne : values ≠ []) :
    values.filter (fun v => decide (v ≤ medianQ values)) ≠ [] := by
  obtain ⟨x, hx, hle⟩ := exists_le_median values hne
  intro h
  rw [List.filter_eq_nil_iff] at h
  exact absurd hle (by simpa using h x hx)

/-- C5, counterexample to the claim as stated: for the 10-element set
`[0,0,0,0,1,1,1,1,1,1]` the coefficient of variation (2·√15/9 ≈ 0.86)
exceeds the default 0.3 threshold, yet the assessment reports the set as
NOT bimodal, because the median is 1 and no value is strictly greater than
it, so the slow cluster of the median split would be empty and the code
falls through to the unimodal result. -/
theorem bimodality_iff_cv_counterexample :
    (((3 / 10 : ℚ) : ℝ) <
        (if 0 < listMean [0, 0, 0, 0, 1, 1, 1, 1, 1, 1] then
          Real.sqrt ((sampleVariance [0, 0, 0, 0, 1, 1, 1, 1, 1, 1] : ℚ) : ℝ)
            / ((listMean [0, 0, 0, 0, 1, 1, 1, 1, 1, 1] : ℚ) : ℝ)
        else 0))
      ∧ 10 ≤ ([0, 0, 0, 0, 1, 1, 1, 1, 1, 1] : List ℚ).length
      ∧ (analyze_bimodality (3 / 10) [0, 0, 0, 0, 1, 1, 1, 1, 1, 1]).bimodal
          = false :=
  ⟨(cvGt_iff_real [0, 0, 0, 0, 1, 1, 1, 1, 1, 1] (3 / 10)).mp
      (by norm_num [cvGt, listMean, sampleVariance]),
    by norm_num,
    by norm_num [analyze_bimodality, cvGt, listMean, sampleVariance, medianQ,
      sortQ, List.insertionSort, List.orderedInsert, List.filter]⟩

/-- C5 (amended): for a sample set of size at least 10, the assessment is
reported bimodal iff the coefficient of variation (stdev/mean when mean is
positive, else 0) exceeds the threshold AND the median split leaves the
slow cluster nonempty; when bimodal, the slow cluster holds exactly the
values strictly above the median and the fast cluster exactly those at or
below it, each independently summarized; otherwise the whole set is
reported unimodal as the fast cluster. -/
theorem bimodal_iff_cv_and_slow_nonempty (t : ℚ) (values : List ℚ)
    (hlen : 10 ≤ values.length) :
    ((analyze_bimodality t values).bimodal = true ↔
      (((t : ℚ) : ℝ) <
          (if 0 < listMean values then
            Real.sqrt ((sampleVariance values : ℚ) : ℝ)
              / ((listMean values : ℚ) : ℝ)
          else 0))
        ∧ values.filter (fun v => decide (medianQ values < v)) ≠ [])
      ∧ ((analyze_bimodality t values).bimodal = true →
          (analyze_bimodality t values).phase_a
              = values.filter (fun v => decide (medianQ values < v))
            ∧ (analyze_bimodality t values).phase_b
              = values.filter (fun v => decide (v ≤ medianQ values))
            ∧ (analyze_bimodality t values).phase_a_stats
              = some (compute_percentiles
                  (values.filter (fun v => decide (medianQ values < v))))
            ∧ (analyze_bimodality t values).phase_b_stats
              = compute_percentiles
                  (values.filter (fun v => decide (v ≤ medianQ values))))
      ∧ ((analyze_bimodality t values).bimodal = false →
          (analyze_bimodality t values).phase_a = []
            ∧ (analyze_bimodality t values).phase_b = values) := by
  have hne : values ≠ [] := by
    intro h
    subst h
    simp at hlen
  have hpb := filter_le_median_ne_nil values hne
  rw [← cvGt_iff_real values t]
  unfold analyze_bimodality
  rw [if_neg (by omega)]
  by_cases hcv : cvGt values t = true
  · rw [if_pos hcv]
    by_cases hpa : values.filter (fun v => decide (medianQ values < v)) = []
    · rw [if_neg (by simp [hpa])]
      simp [hcv, hpa]
    · rw [if_pos ⟨List.length_pos.mpr hpa, List.length_pos.mpr hpb⟩]
      simp [hcv, hpa]
  · rw [if_neg hcv]
    simp [hcv]

/-- Witness for `bimodal_iff_cv_and_slow_nonempty` at the default 0.3
threshold on a 10-element set. -/
theorem bimodal_iff_cv_and_slow_nonempty_witness :
    10 ≤ ([1, 1, 1, 1, 1, 1, 1, 1, 1, 1] : List ℚ).length
      ∧ (((analyze_bimodality (3 / 10) [1, 1, 1, 1, 1, 1, 1, 1, 1, 1]).bimodal = true ↔
          (((3 / 10 : ℚ) : ℝ) <
              (if 0 < listMean [1, 1, 1, 1, 1, 1, 1, 1, 1, 1] then
                Real.sqrt ((sampleVariance [1, 1, 1, 1, 1, 1, 1, 1, 1, 1] : ℚ) : ℝ)
                  / ((listMean [1, 1, 1, 1, 1, 1, 1, 1, 1, 1] : ℚ) : ℝ)
              else 0))
            ∧ ([1, 1, 1, 1, 1, 1, 1, 1, 1, 1] : List ℚ).filter
                (fun v => decide (medianQ [1, 1, 1, 1, 1, 1, 1, 1, 1, 1] < v)) ≠ [])
        ∧ ((analyze_bimodality (3 / 10) [1, 1, 1, 1, 1, 1, 1, 1, 1, 1]).bimodal = true →
            (analyze_bimodality (3 / 10) [1, 1, 1, 1, 1, 1, 1, 1, 1, 1]).phase_a
                = ([1, 1, 1, 1, 1, 1, 1, 1, 1, 1] : List ℚ).filter
                    (fun v => decide (medianQ [1, 1, 1, 1, 1, 1, 1, 1, 1, 1] < v))
              ∧ (analyze_bimodality (3 / 10) [1, 1, 1, 1, 1, 1, 1, 1, 1, 1]).phase_b
                = ([1, 1, 1, 1, 1, 1, 1, 1, 1, 1] : List ℚ).filter
                    (fun v => decide (v ≤ medianQ [1, 1, 1, 1, 1, 1, 1, 1, 1, 1]))
              ∧ (analyze_bimodality (3 / 10) [1, 1, 1, 1, 1, 1, 1, 1, 1, 1]).phase_a_stats
                = some (compute_percentiles
                    (([1, 1, 1, 1, 1, 1, 1, 1, 1, 1] : List ℚ).filter
                      (fun v => decide (medianQ [1, 1, 1, 1, 1, 1, 1, 1, 1, 1] < v))))
              ∧ (analyze_bimodality (3 / 10) [1, 1, 1, 1, 1, 1, 1, 1, 1, 1]).phase_b_stats
                = compute_percentiles
                    (([1, 1, 1, 1, 1, 1, 1, 1, 1, 1] : List ℚ).filter
                      (fun v => decide (v ≤ medianQ [1, 1, 1, 1, 1, 1, 1, 1, 1, 1]))))
        ∧ ((analyze_bimodality (3 / 10) [1, 1, 1, 1, 1, 1, 1, 1, 1, 1]).bimodal = false →
            (analyze_bimodality (3 / 10) [1, 1, 1, 1, 1, 1, 1, 1, 1, 1]).phase_a = []
              ∧ (analyze_bimodality (3 / 10) [1, 1, 1, 1, 1, 1, 1, 1, 1, 1]).phase_b
                = [1, 1, 1, 1, 1, 1, 1, 1, 1, 1])) :=
  ⟨by norm_num,
    bimodal_iff_cv_and_slow_nonempty (3 / 10) [1, 1, 1, 1, 1, 1, 1, 1, 1, 1]
      (by norm_num)⟩

/-- C10: with at least 10 samples, a coefficient of variation above the
threshold but a median split whose slow cluster would be empty yields the
unimodal result with an empty slow cluster and the entire set as the fast
cluster — never a bimodal report with an empty cluster. -/
theorem cv_exceeds_empty_slow_unimodal (t : ℚ) (values : List ℚ)
    (hlen : 10 ≤ values.length)
    (hcv : ((t : ℚ) : ℝ) <
        (if 0 < listMean values then
          Real.sqrt ((sampleVariance values : ℚ) : ℝ)
            / ((listMean values : ℚ) : ℝ)
        else 0))
    (hempty : values.filter (fun v => decide (medianQ values < v)) = []) :
    analyze_bimodality t values
      = { bimodal := false, phase_a := [], phase_b := values,
          phase_a_stats := none,
          phase_b_stats := compute_percentiles values,
          raw_stats := compute_percentiles values } := by
  have hcvb : cvGt values t = true := (cvGt_iff_real values t).mpr hcv
  unfold analyze_bimodality
  rw [if_neg (by omega), if_pos hcvb]
  simp [hempty]

/-- Witness for `cv_exceeds_empty_slow_unimodal` on
`[0,0,0,0,1,1,1,1,1,1]` with the default 0.3 threshold. -/
theorem cv_exceeds_empty_slow_unimodal_witness :
    10 ≤ ([0, 0, 0, 0, 1, 1, 1, 1, 1, 1] : List ℚ).length
      ∧ (((3 / 10 : ℚ) : ℝ) <
          (if 0 < listMean [0, 0, 0, 0, 1, 1, 1, 1, 1, 1] then
            Real.sqrt ((sampleVariance [0, 0, 0, 0, 1, 1, 1, 1, 1, 1] : ℚ) : ℝ)
              / ((listMean [0, 0, 0, 0, 1, 1, 1, 1, 1, 1] : ℚ) : ℝ)
          else 0))
      ∧ ([0, 0, 0, 0, 1, 1, 1, 1, 1, 1] : List ℚ).filter
          (fun v => decide (medianQ [0, 0, 0, 0, 1, 1, 1, 1, 1, 1] < v)) = []
      ∧ analyze_bimodality (3 / 10) [0, 0, 0, 0, 1, 1, 1, 1, 1, 1]
          = { bimodal := false, phase_a := [],
              phase_b := [0, 0, 0, 0, 1, 1, 1, 1, 1, 1],
              phase_a_stats := none,
              phase_b_stats := compute_percentiles [0, 0, 0, 0, 1, 1, 1, 1, 1, 1],
              raw_stats := compute_percentiles [0, 0, 0, 0, 1, 1, 1, 1, 1, 1] } :=
  ⟨by norm_num,
    (cvGt_iff_real [0, 0, 0, 0, 1, 1, 1, 1, 1, 1] (3 / 10)).mp
      (by norm_num [cvGt, listMean, sampleVariance]),
    by norm_num [medianQ, sortQ, List.insertionSort, List.orderedInsert,
      List.filter],
    cv_exceeds_empty_slow_unimodal (3 / 10) [0, 0, 0, 0, 1, 1, 1, 1, 1, 1]
      (by norm_num)
      ((cvGt_iff_real [0, 0, 0, 0, 1, 1, 1, 1, 1, 1] (3 / 10)).mp
        (by norm_num [cvGt, listMean, sampleVariance]))
      (by norm_num [medianQ, sortQ, List.insertionSort, List.orderedInsert,
        List.filter])⟩

/-- Witness for `percentiles_singleton` at `v = 7`. -/
theorem percentiles_singleton_witness :
    compute_percentiles [7]
      = { p50 := 7, p95 := 7, p99 := 7, mean := 7, stdevSq := 0,
          min := 7, max := 7, raw := [7] } :=
  percentiles_singleton 7
